import Mathlib

/-!
Verification of the ARTIQ kernel-CPU support runtime
(`src/artiq/firmware/ksupport/lib.rs`) against its natural-language
specification.

The runtime is single-threaded; its stateful pieces (the DMA recorder
singleton) are embedded as explicit state passing, and every interaction
with the supervisor CPU (mailbox sends, symbol rebinding, instruction-cache
flushes, async-queue enqueues) is recorded as an explicit `Effect`.
Host replies arriving over the mailbox are passed in as parameters.
Machine integers are embedded as `Int`/`Nat`: Rust's arithmetic shift right
on `i32`/`i64` is floor division by a power of two, and `as u8` truncation
is `% 256` (Euclidean remainder, so well-defined on negatives).
-/

namespace Artiq

/-- An exception record (`eh_artiq::Exception`): interned identifier,
source location, function, message, and three numeric parameters.
Modelled from the spec: the `eh_artiq` crate is outside the source under
verification; identifiers are "interned names", represented here by the
name itself. -/
structure Exception where
  id : String
  file : String
  line : Nat
  column : Nat
  function : String
  message : String
  param : Int × Int × Int
deriving DecidableEq, Repr

/-- Builds the exception record produced by the runtime's raise pattern:
identifier interned from the name, fixed function string, given message,
zero parameters.  The concrete file/line/column of the raise site are not
modelled (no claim inspects them); a fixed placeholder location is used. -/
def raiseExn (name message : String) : Exception :=
  { id := name
    file := "artiq/firmware/ksupport/lib.rs"
    line := 0
    column := 0
    function := "(Rust function)"
    message := message
    param := (0, 0, 0) }

/-- The target a real-time output entry point can be rebound to. -/
inductive RebindTarget where
  | dmaRecordOutput
  | dmaRecordOutputWide
  | rtioOutput
  | rtioOutputWide
deriving DecidableEq, Repr

/-- Messages sent to the supervisor CPU over the mailbox (the subset of
`kernel_proto::Message` exercised by the verified entry points).
Byte-slice parameters are lists of byte values. -/
inductive Message where
  | Log (text : String)
  | DmaRecordAppend (bytes : List Nat)
  | DmaRecordStart (name : List Nat)
  | DmaRecordStop (duration : Nat) (enable_ddma : Bool)
  | DmaEraseRequest (name : List Nat)
  | DmaRetrieveRequest (name : List Nat)
  | CacheGetRequest (key : List Nat)
  | CachePutRequest (key : List Nat) (value : List Int)
  | RpcSend (isAsync : Bool) (service : Nat) (tag : List Nat)
  | RpcRecvRequest (slot : Nat)
  | RpcFlush
  | RunFinished
  | RunAborted
  | SubkernelAwaitFinishRequest (id : Nat) (timeout : Int)
  | SubkernelMsgRecvRequest (id : Int) (timeout : Int) (tags : List Nat)
deriving DecidableEq, Repr

/-- Observable actions of the runtime, in program order: a mailbox send, a
symbol rebind in the loaded image, an instruction-cache flush, or a
successful non-blocking enqueue onto the lock-free async-RPC queue. -/
inductive Effect where
  | send (m : Message)
  | rebind (symbol : String) (target : RebindTarget)
  | flushIcache
  | enqueueAsync (service : Nat) (tag : List Nat)
deriving DecidableEq, Repr

/-- How a runtime entry point finishes: returning a value, raising a
catchable exception into the program's unwinding mechanism
(`eh_artiq::raise`), or hitting a Rust panic (which is handled by
`panic_fmt`, not catchable by the program). -/
inductive Outcome (α : Type) where
  | ok (a : α)
  | raised (e : Exception)
  | panicked
deriving DecidableEq, Repr

/-! ## Byte-level helpers: `as u8` truncation and arithmetic shift right -/

/-- Rust `x as u8` on a signed integer: the low byte, i.e. the Euclidean
remainder mod 256 (two's-complement truncation). -/
def toU8 (x : Int) : Nat := (x % 256).toNat

/-- Rust `x >> n` on a signed integer (arithmetic shift right), i.e. floor
division by `2 ^ n`. -/
def asr (x : Int) (n : Nat) : Int := Int.fdiv x (2 ^ n)

/-! ## DMA recorder (`DmaRecorder`, `dma_record_*`) -/

/-- `const DMA_BUFFER_SIZE: usize = 64 * 1024;` -/
def DMA_BUFFER_SIZE : Nat := 64 * 1024

/-- The DMA recorder singleton.  The source holds a fixed
`[u8; DMA_BUFFER_SIZE]` array together with a cursor `data_len`; the
embedding represents the array by its written prefix, so `data_len` is
`buffer.length`. -/
structure DmaRecorder where
  active : Bool
  buffer : List Nat
deriving DecidableEq, Repr

/-- `dma_record_flush`: sends the written prefix of the buffer to the host
as a `DmaRecordAppend` and resets the cursor to 0. -/
def dma_record_flush (s : DmaRecorder) : List Effect × DmaRecorder :=
  ([Effect.send (Message.DmaRecordAppend s.buffer)], { s with buffer := [] })

/-- `/*length*/1 + /*channel*/3 + /*timestamp*/8 + /*address*/1` -/
def HEADER_LENGTH : Nat := 13

/-- The 13 header bytes written by `dma_record_output_prepare`: the record
length byte (`length as u8`), three channel bytes (`target >> 8/16/24`),
eight little-endian timestamp bytes, and the address byte (`target >> 0`). -/
def dmaHeader (timestamp target : Int) (words : Nat) : List Nat :=
  [ (HEADER_LENGTH + words * 4) % 256,
    toU8 (asr target 8), toU8 (asr target 16), toU8 (asr target 24),
    toU8 (asr timestamp 0), toU8 (asr timestamp 8),
    toU8 (asr timestamp 16), toU8 (asr timestamp 24),
    toU8 (asr timestamp 32), toU8 (asr timestamp 40),
    toU8 (asr timestamp 48), toU8 (asr timestamp 56),
    toU8 (asr target 0) ]

/-- The four little-endian payload bytes of one RTIO data word
(`word >> 0/8/16/24` as `u8`). -/
def wordBytes (word : Int) : List Nat :=
  [toU8 (asr word 0), toU8 (asr word 8), toU8 (asr word 16), toU8 (asr word 24)]

/-- `dma_record_output_prepare`: if the remaining buffer space is smaller
than the record (header plus `words * 4` payload bytes), flush first; then
reserve the record and write the header.  Indexing the fixed array out of
range in Rust would panic, which the embedding keeps explicit (the guard is
provably never hit from in-range states). -/
def dma_record_output_prepare (s : DmaRecorder) (timestamp target : Int)
    (words : Nat) : List Effect × Outcome DmaRecorder :=
  let length := HEADER_LENGTH + words * 4
  let flushed := if DMA_BUFFER_SIZE - s.buffer.length < length then
                   dma_record_flush s
                 else ([], s)
  if DMA_BUFFER_SIZE < flushed.2.buffer.length + length then
    (flushed.1, Outcome.panicked)
  else
    (flushed.1,
     Outcome.ok { flushed.2 with
                   buffer := flushed.2.buffer ++ dmaHeader timestamp target words })

/-- `dma_record_output`: appends one single-word record.  The timestamp the
source reads from the `csr::rtio::now` registers is a parameter here. -/
def dma_record_output (s : DmaRecorder) (timestamp target word : Int) :
    List Effect × Outcome DmaRecorder :=
  match dma_record_output_prepare s timestamp target 1 with
  | (effs, Outcome.ok s1) =>
      (effs, Outcome.ok { s1 with buffer := s1.buffer ++ wordBytes word })
  | r => r

/-- `dma_record_output_wide`: `assert!(words.len() <= 16)` (a Rust panic on
violation), then appends one record with all payload words in order. -/
def dma_record_output_wide (s : DmaRecorder) (timestamp target : Int)
    (words : List Int) : List Effect × Outcome DmaRecorder :=
  if 16 < words.length then ([], Outcome.panicked)
  else
    match dma_record_output_prepare s timestamp target words.length with
    | (effs, Outcome.ok s1) =>
        (effs, Outcome.ok { s1 with
                             buffer := s1.buffer ++ (words.map wordBytes).flatten })
    | r => r

/-- The full byte string of one DMA trace record: header then payload. -/
def dmaRecordBytes (timestamp target : Int) (words : List Int) : List Nat :=
  dmaHeader timestamp target words.length ++ (words.map wordBytes).flatten

/-! ## Little-endian decoding of a trace record (specification side) -/

/-- Little-endian byte-list decoding. -/
def decodeLE : List Nat → Nat
  | [] => 0
  | b :: bs => b + 256 * decodeLE bs

/-- The record-length byte of a trace record. -/
def recordLength (r : List Nat) : Nat := r.headD 0

/-- The channel field: bytes 1..3, little-endian. -/
def recordChannel (r : List Nat) : Nat := decodeLE ((r.drop 1).take 3)

/-- The timestamp field: bytes 4..11, little-endian. -/
def recordTimestamp (r : List Nat) : Nat := decodeLE ((r.drop 4).take 8)

/-- The address byte: byte 12. -/
def recordAddress (r : List Nat) : Nat := (r.drop 12).headD 0

/-- The word count implied by the record-length byte. -/
def recordWordCount (r : List Nat) : Nat := (recordLength r - 13) / 4

/-- The payload bytes: everything after the 13-byte header. -/
def recordPayload (r : List Nat) : List Nat := r.drop 13

/-! ## DMA recording sessions (`dma_record_start` / `dma_record_stop`) -/

/-- Validity of a byte sequence as UTF-8.  Modelled from the spec:
`str::from_utf8` (Rust standard library, outside the source under
verification) accepts exactly well-formed UTF-8; this is the standard
byte-level acceptance table. -/
def isUtf8Cont (b : Nat) : Bool := 0x80 ≤ b && b ≤ 0xBF

/-- See `isUtf8Cont`: the leading-byte dispatch of standard UTF-8
validation over a byte list. -/
def utf8Valid : List Nat → Bool
  | [] => true
  | b :: rest =>
    if b ≤ 0x7F then utf8Valid rest
    else if 0xC2 ≤ b && b ≤ 0xDF then
      match rest with
      | c1 :: rest2 => isUtf8Cont c1 && utf8Valid rest2
      | [] => false
    else if b == 0xE0 then
      match rest with
      | c1 :: c2 :: rest2 =>
          (0xA0 ≤ c1 && c1 ≤ 0xBF) && isUtf8Cont c2 && utf8Valid rest2
      | _ => false
    else if (0xE1 ≤ b && b ≤ 0xEC) || (0xEE ≤ b && b ≤ 0xEF) then
      match rest with
      | c1 :: c2 :: rest2 => isUtf8Cont c1 && isUtf8Cont c2 && utf8Valid rest2
      | _ => false
    else if b == 0xED then
      match rest with
      | c1 :: c2 :: rest2 =>
          (0x80 ≤ c1 && c1 ≤ 0x9F) && isUtf8Cont c2 && utf8Valid rest2
      | _ => false
    else if b == 0xF0 then
      match rest with
      | c1 :: c2 :: c3 :: rest2 =>
          (0x90 ≤ c1 && c1 ≤ 0xBF) && isUtf8Cont c2 && isUtf8Cont c3 &&
            utf8Valid rest2
      | _ => false
    else if 0xF1 ≤ b && b ≤ 0xF3 then
      match rest with
      | c1 :: c2 :: c3 :: rest2 =>
          isUtf8Cont c1 && isUtf8Cont c2 && isUtf8Cont c3 && utf8Valid rest2
      | _ => false
    else if b == 0xF4 then
      match rest with
      | c1 :: c2 :: c3 :: rest2 =>
          (0x80 ≤ c1 && c1 ≤ 0x8F) && isUtf8Cont c2 && isUtf8Cont c3 &&
            utf8Valid rest2
      | _ => false
    else false

/-- `dma_record_start(name)`: `str::from_utf8(name).unwrap()` (Rust panic on
invalid UTF-8), then raise `DMAError` if already recording; otherwise rebind
the output entry points to the recorder, flush the instruction cache, set
`active`, and notify the host. -/
def dma_record_start (s : DmaRecorder) (name : List Nat) :
    List Effect × Outcome DmaRecorder :=
  if utf8Valid name then
    if s.active then
      ([], Outcome.raised (raiseExn "DMAError" "DMA is already recording"))
    else
      ([Effect.rebind "rtio_output" RebindTarget.dmaRecordOutput,
        Effect.rebind "rtio_output_wide" RebindTarget.dmaRecordOutputWide,
        Effect.flushIcache,
        Effect.send (Message.DmaRecordStart name)],
       Outcome.ok { s with active := true })
  else ([], Outcome.panicked)

/-- `dma_record_stop(duration, enable_ddma)`: flush the buffer first, then
raise `DMAError` if not recording; otherwise restore the normal output
entry points, flush the instruction cache, clear `active`, and report the
stop (duration cast to `u64`). -/
def dma_record_stop (s : DmaRecorder) (duration : Int) (enable_ddma : Bool) :
    List Effect × Outcome DmaRecorder :=
  let flushed := dma_record_flush s
  if !flushed.2.active then
    (flushed.1, Outcome.raised (raiseExn "DMAError" "DMA is not recording"))
  else
    (flushed.1 ++
       [Effect.rebind "rtio_output" RebindTarget.rtioOutput,
        Effect.rebind "rtio_output_wide" RebindTarget.rtioOutputWide,
        Effect.flushIcache,
        Effect.send (Message.DmaRecordStop ((duration % (2 ^ 64)).toNat) enable_ddma)],
     Outcome.ok { flushed.2 with active := false })

/-- `dma_erase(name)`: UTF-8 check, then an erase request. -/
def dma_erase (name : List Nat) : List Effect × Outcome Unit :=
  if utf8Valid name then
    ([Effect.send (Message.DmaEraseRequest name)], Outcome.ok ())
  else ([], Outcome.panicked)

/-- The record returned by `dma_retrieve`. -/
structure DmaTrace where
  duration : Int
  address : Nat
  uses_ddma : Bool
deriving DecidableEq, Repr

/-- `dma_retrieve(name)`: UTF-8 check, retrieve request, and on a reply with
no trace a log line followed by a `DMAError` raise.  The host reply is a
parameter: `some (address, duration, uses_ddma)` or `none`. -/
def dma_retrieve (name : List Nat) (reply : Option (Nat × Int × Bool)) :
    List Effect × Outcome DmaTrace :=
  if utf8Valid name then
    match reply with
    | some (address, duration, uses_ddma) =>
        ([Effect.send (Message.DmaRetrieveRequest name)],
         Outcome.ok { duration := duration, address := address,
                      uses_ddma := uses_ddma })
    | none =>
        ([Effect.send (Message.DmaRetrieveRequest name),
          Effect.send (Message.Log "DMA trace not found\n")],
         Outcome.raised (raiseExn "DMAError" "DMA trace not found"))
  else ([], Outcome.panicked)

/-! ## Host-backed cache (`cache_get` / `cache_put`) -/

/-- `cache_get(key)`: `str::from_utf8(key).unwrap()` (Rust panic on invalid
UTF-8), then a get request; the host reply carries the value pointer,
passed here as a parameter. -/
def cache_get (key : List Nat) (replyValue : Nat) :
    List Effect × Outcome Nat :=
  if utf8Valid key then
    ([Effect.send (Message.CacheGetRequest key)], Outcome.ok replyValue)
  else ([], Outcome.panicked)

/-- `cache_put(key, list)`: UTF-8 check, put request, and a `CacheError`
raise when the host reports `succeeded = false`. -/
def cache_put (key : List Nat) (value : List Int) (succeeded : Bool) :
    List Effect × Outcome Unit :=
  if utf8Valid key then
    ([Effect.send (Message.CachePutRequest key value)],
     if succeeded then Outcome.ok ()
     else Outcome.raised (raiseExn "CacheError" "cannot put into a busy cache row"))
  else ([], Outcome.panicked)

/-! ## Asynchronous RPC (`rpc_send_async`) -/

/-- Modelled from the spec: `board_artiq::rpc_queue` is the bounded
lock-free queue shared with the host-side drain, outside the source under
verification.  `full i` / `empty i` give the hardware flags as seen at the
i-th successive poll; `fits` tells whether the encoded call fits in one
queue entry (its failure is `io::Error::UnexpectedEnd` from the writer). -/
structure RpcQueueOracle where
  full : Nat → Bool
  empty : Nat → Bool
  fits : Bool

/-- Busy-wait helper: the index of the first poll (below `fuel`) at which
the flag reads false, `none` if it stays set for `fuel` polls. -/
def firstClear (p : Nat → Bool) (fuel : Nat) : Option Nat :=
  (List.range fuel).find? (fun i => !(p i))

/-- `rpc_send_async(service, tag, data)`: spin while the queue is full;
then attempt the non-blocking enqueue; if the encoded call does not fit in
a queue entry (`UnexpectedEnd`), spin while the queue is non-empty and fall
back to a synchronous mailbox `RpcSend` flagged async.  `none` means the
call is still spinning after `fuel` polls. -/
def rpc_send_async (q : RpcQueueOracle) (fuel : Nat) (service : Nat)
    (tag : List Nat) : Option (List Effect) :=
  match firstClear q.full fuel with
  | none => none
  | some _ =>
    if q.fits then some [Effect.enqueueAsync service tag]
    else
      match firstClear (fun i => !(q.empty i)) fuel with
      | none => none
      | some _ => some [Effect.send (Message.RpcSend true service tag)]

/-- The oracle for a quiescent queue: never full, always empty, and the
encoded call fits in one entry. -/
def immediateQueue : RpcQueueOracle :=
  { full := fun _ => false, empty := fun _ => true, fits := true }

/-! ## RPC result reception (`rpc_recv`) -/

/-- The host reply to an `RpcRecvRequest`: `Ok(alloc_size)` or an error
carrying a full exception record. -/
inductive RpcRecvReplyData where
  | ok (alloc_size : Nat)
  | err (e : Exception)
deriving DecidableEq, Repr

/-- `rpc_recv(slot)`: sends the receive request; on `Ok(n)` returns `n`; on
an error reconstructs the exception field by field and raises it. -/
def rpc_recv (slot : Nat) (reply : RpcRecvReplyData) :
    List Effect × Outcome Nat :=
  ([Effect.send (Message.RpcRecvRequest slot)],
   match reply with
   | RpcRecvReplyData.ok alloc_size => Outcome.ok alloc_size
   | RpcRecvReplyData.err e =>
       Outcome.raised
         { id := e.id
           file := e.file
           line := e.line
           column := e.column
           function := e.function
           message := e.message
           param := e.param })

/-! ## Subkernel coordination -/

/-- `kernel_proto::SubkernelStatus`. -/
inductive SubkernelStatus where
  | IncorrectState
  | Timeout
  | CommLost
  | OtherError
  | Exception (e : Exception)
deriving DecidableEq, Repr

/-- The shared `SubkernelError(status)` match arms of
`subkernel_await_finish` and `subkernel_await_message`. -/
def subkernelStatusOutcome {α : Type} : SubkernelStatus → Outcome α
  | SubkernelStatus.IncorrectState =>
      Outcome.raised (raiseExn "SubkernelError" "Subkernel not running")
  | SubkernelStatus.Timeout =>
      Outcome.raised (raiseExn "SubkernelError" "Subkernel timed out")
  | SubkernelStatus.CommLost =>
      Outcome.raised (raiseExn "SubkernelError" "Lost communication with satellite")
  | SubkernelStatus.OtherError =>
      Outcome.raised (raiseExn "SubkernelError" "An error occurred during subkernel operation")
  | SubkernelStatus.Exception e => Outcome.raised e

/-- The host reply to a `SubkernelAwaitFinishRequest`. -/
inductive AwaitFinishReply where
  | finished
  | error (status : SubkernelStatus)
deriving DecidableEq, Repr

/-- `subkernel_await_finish(id, timeout)`: request, then either a normal
return on `SubkernelAwaitFinishReply` or the status dispatch above. -/
def subkernel_await_finish (id : Nat) (timeout : Int)
    (reply : AwaitFinishReply) : List Effect × Outcome Unit :=
  ([Effect.send (Message.SubkernelAwaitFinishRequest id timeout)],
   match reply with
   | AwaitFinishReply.finished => Outcome.ok ()
   | AwaitFinishReply.error status => subkernelStatusOutcome status)

/-- The host reply to a `SubkernelMsgRecvRequest`. -/
inductive MsgRecvReply where
  | received (count : Nat)
  | error (status : SubkernelStatus)
deriving DecidableEq, Repr

/-- `subkernel_await_message(id, timeout, tags, min, max)`: request, then on
`SubkernelMsgRecvReply { count }` raise `SubkernelError` when `count < min`
or `count > max` and return `count` otherwise; a `SubkernelError(status)`
reply takes the shared status dispatch. -/
def subkernel_await_message (id : Int) (timeout : Int) (tags : List Nat)
    (mn mx : Nat) (reply : MsgRecvReply) : List Effect × Outcome Nat :=
  ([Effect.send (Message.SubkernelMsgRecvRequest id timeout tags)],
   match reply with
   | MsgRecvReply.received count =>
       if count < mn || mx < count then
         Outcome.raised
           (raiseExn "SubkernelError" "Received less or more arguments than expected")
       else Outcome.ok count
   | MsgRecvReply.error status => subkernelStatusOutcome status)

/-! ## Panic path (`panic_fmt`) -/

/-- A Rust panic location. -/
structure PanicLocation where
  file : String
  line : Nat
  column : Nat
deriving DecidableEq, Repr

/-- `panic_fmt`: logs the panic location (or "unknown location"), logs the
panic message if any, sends `RunAborted`, and halts (`loop {}`), returned as
the Boolean `true`. -/
def panic_fmt (location : Option PanicLocation) (message : Option String) :
    List Effect × Bool :=
  ((match location with
    | some l =>
        [Effect.send (Message.Log
          ("panic at " ++ l.file ++ ":" ++ toString l.line ++ ":" ++ toString l.column))]
    | none => [Effect.send (Message.Log "panic at unknown location")]) ++
   (match message with
    | some m => [Effect.send (Message.Log (": " ++ m ++ "\n"))]
    | none => [Effect.send (Message.Log "\n")]) ++
   [Effect.send Message.RunAborted], true)

/-- Runs an entry point to the host-visible boundary: a Rust panic lands in
`panic_fmt` (appending its effects and halting the CPU permanently), any
other outcome returns with the CPU still running. -/
def runToHost {α : Type} (r : List Effect × Outcome α)
    (location : PanicLocation) (message : String) : List Effect × Bool :=
  match r with
  | (effs, Outcome.panicked) =>
      (effs ++ (panic_fmt (some location) (some message)).1, true)
  | (effs, _) => (effs, false)

/-! ## Attribute write-back and the end of `main` -/

/-- One attribute descriptor (`Attr`): byte offset, type tag, name. -/
structure AttrDesc where
  offset : Nat
  tag : List Nat
  name : List Nat
deriving DecidableEq, Repr

/-- One type descriptor (`Type`): its null-terminated attribute and object
tables, embedded as lists. -/
structure TypeDesc where
  attributes : List AttrDesc
  objects : List Nat
deriving DecidableEq, Repr

/-- Sequences effectful calls over a list, concatenating their effects and
propagating a still-spinning `none`. -/
def seqEffects {α : Type} : List α → (α → Option (List Effect)) →
    Option (List Effect)
  | [], _ => some []
  | x :: xs, f =>
    match f x with
    | none => none
    | some effs =>
      match seqEffects xs f with
      | none => none
      | some rest => some (effs ++ rest)

/-- `attribute_writeback(typeinfo)`: walk the null-terminated type, object
and attribute tables and, for every attribute whose type tag is non-empty,
issue `rpc_send_async(0, tag, ...)`. -/
def attribute_writeback (q : RpcQueueOracle) (fuel : Nat)
    (tys : List TypeDesc) : Option (List Effect) :=
  seqEffects tys (fun ty =>
    seqEffects ty.objects (fun _object =>
      seqEffects ty.attributes (fun attr =>
        if 0 < attr.tag.length then rpc_send_async q fuel 0 attr.tag
        else some [])))

/-- The tail of `main` after `__modinit__` returns: attribute write-back if
a `typeinfo` table was exported, then `RpcFlush`, then `RunFinished`. -/
def mainFinish (q : RpcQueueOracle) (fuel : Nat)
    (typeinfo : Option (List TypeDesc)) : Option (List Effect) :=
  match (match typeinfo with
         | some tys => attribute_writeback q fuel tys
         | none => some []) with
  | none => none
  | some effs =>
      some (effs ++ [Effect.send Message.RpcFlush, Effect.send Message.RunFinished])

/-- Specification-side description of the write-back effects: one async
post per attribute with a non-empty tag, per live object, in table order. -/
def writebackPosts (tys : List TypeDesc) : List Effect :=
  (tys.map (fun ty =>
    (ty.objects.map (fun _object =>
      (ty.attributes.filter (fun attr => 0 < attr.tag.length)).map
        (fun attr => Effect.enqueueAsync 0 attr.tag))).flatten)).flatten

/-! ## DMA recording runs (for the capacity invariant) -/

/-- One recorded output event: the single-word or wide entry point with the
timestamp read at the call. -/
inductive DmaEvent where
  | output (timestamp target word : Int)
  | outputWide (timestamp target : Int) (words : List Int)
deriving DecidableEq, Repr

/-- The hardware constraint checked by `dma_record_output_wide`'s assert. -/
def eventOK : DmaEvent → Bool
  | DmaEvent.output _ _ _ => true
  | DmaEvent.outputWide _ _ words => decide (words.length ≤ 16)

/-- The record bytes an event appends. -/
def eventBytes : DmaEvent → List Nat
  | DmaEvent.output t target word => dmaRecordBytes t target [word]
  | DmaEvent.outputWide t target words => dmaRecordBytes t target words

/-- Dispatches one event to the corresponding entry point. -/
def runEvent (s : DmaRecorder) : DmaEvent → List Effect × Outcome DmaRecorder
  | DmaEvent.output t target word => dma_record_output s t target word
  | DmaEvent.outputWide t target words => dma_record_output_wide s t target words

/-- Runs a sequence of recording events, concatenating effects and stopping
at the first non-normal outcome. -/
def runEvents (s : DmaRecorder) : List DmaEvent → List Effect × Outcome DmaRecorder
  | [] => ([], Outcome.ok s)
  | e :: es =>
    match runEvent s e with
    | (effs, Outcome.ok s1) =>
        (effs ++ (runEvents s1 es).1, (runEvents s1 es).2)
    | r => r

/-- The bytes a single effect hands to the host as trace data. -/
def flushedOf : Effect → List Nat
  | Effect.send (Message.DmaRecordAppend bytes) => bytes
  | _ => []

/-- All trace bytes flushed to the host by a list of effects, in order. -/
def flushedBytes (effs : List Effect) : List Nat :=
  (effs.map flushedOf).flatten

/-! ## Theorems -/

/-- C5: `record_start` on an already-active recorder raises `DMAError`
before rebinding any output entry point or notifying the host (no effects
at all are produced), and `record_stop` on an inactive recorder first
flushes the pending buffered bytes (`DmaRecordAppend` of the current
buffer) and then raises `DMAError`. -/
theorem c5_start_stop_state_errors (s : DmaRecorder) (name : List Nat)
    (duration : Int) (enable_ddma : Bool) (hname : utf8Valid name = true) :
    (s.active = true →
      dma_record_start s name =
        ([], Outcome.raised (raiseExn "DMAError" "DMA is already recording"))) ∧
    (s.active = false →
      dma_record_stop s duration enable_ddma =
        ([Effect.send (Message.DmaRecordAppend s.buffer)],
         Outcome.raised (raiseExn "DMAError" "DMA is not recording"))) := by
  constructor
  · intro h
    simp [dma_record_start, hname, h]
  · intro h
    simp [dma_record_stop, dma_record_flush, h]

/-- Witness for C5: an active recorder rejects `record_start`, an inactive
one rejects `record_stop` after flushing its two pending bytes. -/
theorem c5_start_stop_state_errors_witness :
    dma_record_start { active := true, buffer := [] } [97] =
      ([], Outcome.raised (raiseExn "DMAError" "DMA is already recording")) ∧
    dma_record_stop { active := false, buffer := [1, 2] } 0 false =
      ([Effect.send (Message.DmaRecordAppend [1, 2])],
       Outcome.raised (raiseExn "DMAError" "DMA is not recording")) :=
  ⟨(c5_start_stop_state_errors { active := true, buffer := [] } [97] 0 false
      (by decide)).1 rfl,
   (c5_start_stop_state_errors { active := false, buffer := [1, 2] } [97] 0 false
      (by decide)).2 rfl⟩

/-- C6: `rpc_recv` sends the receive request and, on an `Ok(n)` reply,
returns `n`; on an error reply carrying an exception record it raises an
exception equal to the received record field by field (identifier, file,
line, column, function, message, parameters all preserved) and never
returns a value. -/
theorem c6_rpc_recv_reply (slot n : Nat) (e : Exception) :
    rpc_recv slot (RpcRecvReplyData.ok n) =
      ([Effect.send (Message.RpcRecvRequest slot)], Outcome.ok n) ∧
    rpc_recv slot (RpcRecvReplyData.err e) =
      ([Effect.send (Message.RpcRecvRequest slot)], Outcome.raised e) := by
  refine ⟨rfl, ?_⟩
  cases e
  rfl

/-- C7: `subkernel_await_message` raises `SubkernelError` whenever the
reported count is strictly below `mn` or strictly above `mx`, and returns
the count whenever it lies in the inclusive interval. -/
theorem c7_await_message_count_bounds (id timeout : Int) (tags : List Nat)
    (mn mx count : Nat) :
    (count < mn ∨ mx < count →
      (subkernel_await_message id timeout tags mn mx
          (MsgRecvReply.received count)).2 =
        Outcome.raised
          (raiseExn "SubkernelError" "Received less or more arguments than expected")) ∧
    (mn ≤ count → count ≤ mx →
      (subkernel_await_message id timeout tags mn mx
          (MsgRecvReply.received count)).2 = Outcome.ok count) := by
  constructor
  · intro h
    rcases h with h | h <;> simp [subkernel_await_message, h]
  · intro h1 h2
    simp [subkernel_await_message, Nat.not_lt.mpr h1, Nat.not_lt.mpr h2]

/-- Witness for C7: count 5 outside `[2, 3]` raises, count 2 inside is
returned. -/
theorem c7_await_message_count_bounds_witness :
    (subkernel_await_message 0 0 [] 2 3 (MsgRecvReply.received 5)).2 =
      Outcome.raised
        (raiseExn "SubkernelError" "Received less or more arguments than expected") ∧
    (subkernel_await_message 0 0 [] 2 3 (MsgRecvReply.received 2)).2 =
      Outcome.ok 2 :=
  ⟨(c7_await_message_count_bounds 0 0 [] 2 3 5).1 (Or.inr (by decide)),
   (c7_await_message_count_bounds 0 0 [] 2 3 2).2 (by decide) (by decide)⟩

/-- C8: `subkernel_await_finish` never returns normally on a
`SubkernelError` status reply: `Timeout` raises `SubkernelError` with
message "Subkernel timed out"; `IncorrectState`, `CommLost` and
`OtherError` raise `SubkernelError` with pairwise distinct messages; a
propagated `Exception` status is re-raised verbatim. -/
theorem c8_await_finish_errors (id : Nat) (timeout : Int) (e : Exception) :
    (subkernel_await_finish id timeout
        (AwaitFinishReply.error SubkernelStatus.Timeout)).2 =
      Outcome.raised (raiseExn "SubkernelError" "Subkernel timed out") ∧
    (subkernel_await_finish id timeout
        (AwaitFinishReply.error SubkernelStatus.IncorrectState)).2 =
      Outcome.raised (raiseExn "SubkernelError" "Subkernel not running") ∧
    (subkernel_await_finish id timeout
        (AwaitFinishReply.error SubkernelStatus.CommLost)).2 =
      Outcome.raised (raiseExn "SubkernelError" "Lost communication with satellite") ∧
    (subkernel_await_finish id timeout
        (AwaitFinishReply.error SubkernelStatus.OtherError)).2 =
      Outcome.raised
        (raiseExn "SubkernelError" "An error occurred during subkernel operation") ∧
    (subkernel_await_finish id timeout
        (AwaitFinishReply.error (SubkernelStatus.Exception e))).2 =
      Outcome.raised e ∧
    ("Subkernel timed out" ≠ "Subkernel not running" ∧
     "Subkernel timed out" ≠ "Lost communication with satellite" ∧
     "Subkernel timed out" ≠ "An error occurred during subkernel operation" ∧
     "Subkernel not running" ≠ "Lost communication with satellite" ∧
     "Subkernel not running" ≠ "An error occurred during subkernel operation" ∧
     "Lost communication with satellite" ≠ "An error occurred during subkernel operation") :=
  ⟨rfl, rfl, rfl, rfl, rfl, by decide, by decide, by decide, by decide, by decide,
   by decide⟩

/-- C10: on a key or name that is not valid UTF-8, `cache_get`,
`cache_put`, `dma_record_start`, `dma_retrieve` and `dma_erase` do not
raise a catchable exception but hit a Rust panic (the `unwrap` of
`str::from_utf8`), and the panic handler logs the panic location and
message, sends `RunAborted`, and halts the CPU permanently. -/
theorem c10_invalid_utf8_panics (key : List Nat) (v : Nat) (value : List Int)
    (succeeded : Bool) (s : DmaRecorder) (reply : Option (Nat × Int × Bool))
    (loc : PanicLocation) (msg : String) (h : utf8Valid key = false) :
    cache_get key v = ([], Outcome.panicked) ∧
    cache_put key value succeeded = ([], Outcome.panicked) ∧
    dma_record_start s key = ([], Outcome.panicked) ∧
    dma_retrieve key reply = ([], Outcome.panicked) ∧
    dma_erase key = ([], Outcome.panicked) ∧
    runToHost (cache_get key v) loc msg =
      ([Effect.send (Message.Log
          ("panic at " ++ loc.file ++ ":" ++ toString loc.line ++ ":" ++
            toString loc.column)),
        Effect.send (Message.Log (": " ++ msg ++ "\n")),
        Effect.send Message.RunAborted], true) := by
  refine ⟨?_, ?_, ?_, ?_, ?_, ?_⟩ <;>
    simp [cache_get, cache_put, dma_record_start, dma_retrieve, dma_erase,
          runToHost, panic_fmt, h]

/-- Witness for C10 at the invalid byte sequence `[0xFF]`. -/
theorem c10_invalid_utf8_panics_witness :
    cache_get [255] 0 = ([], Outcome.panicked) ∧
    cache_put [255] [] true = ([], Outcome.panicked) ∧
    dma_record_start { active := false, buffer := [] } [255] =
      ([], Outcome.panicked) ∧
    dma_retrieve [255] none = ([], Outcome.panicked) ∧
    dma_erase [255] = ([], Outcome.panicked) ∧
    runToHost (cache_get [255] 0) { file := "f", line := 1, column := 2 } "m" =
      ([Effect.send (Message.Log
          ("panic at " ++ "f" ++ ":" ++ toString (1 : Nat) ++ ":" ++
            toString (2 : Nat))),
        Effect.send (Message.Log (": " ++ "m" ++ "\n")),
        Effect.send Message.RunAborted], true) :=
  c10_invalid_utf8_panics [255] 0 [] true { active := false, buffer := [] }
    none { file := "f", line := 1, column := 2 } "m" (by decide)

/-- From an in-range recorder state, `dma_record_output_prepare` flushes
exactly when the remaining space is short, never hits the out-of-range
panic, and leaves the header appended to the (possibly reset) buffer. -/
theorem prepare_ok (s : DmaRecorder) (t target : Int) (n : Nat)
    (hs : s.buffer.length ≤ DMA_BUFFER_SIZE) (hn : n ≤ 16) :
    dma_record_output_prepare s t target n =
      (if DMA_BUFFER_SIZE - s.buffer.length < HEADER_LENGTH + n * 4 then
         [Effect.send (Message.DmaRecordAppend s.buffer)] else [],
       Outcome.ok { active := s.active,
                    buffer := (if DMA_BUFFER_SIZE - s.buffer.length <
                                 HEADER_LENGTH + n * 4
                               then [] else s.buffer) ++
                              dmaHeader t target n }) := by
  have hrec : HEADER_LENGTH + n * 4 ≤ 77 := by
    unfold HEADER_LENGTH; omega
  unfold dma_record_output_prepare dma_record_flush
  by_cases hc : DMA_BUFFER_SIZE - s.buffer.length < HEADER_LENGTH + n * 4
  · simp only [hc, if_true, if_pos hc]
    rw [if_neg (by simp; unfold DMA_BUFFER_SIZE; omega)]
  · simp only [hc, if_false, if_neg hc]
    rw [if_neg (by unfold DMA_BUFFER_SIZE at *; omega)]

/-- From an in-range state, `dma_record_output` appends exactly one
single-word trace record, flushing first when fewer than 17 bytes remain. -/
theorem output_ok (s : DmaRecorder) (t target word : Int)
    (hs : s.buffer.length ≤ DMA_BUFFER_SIZE) :
    dma_record_output s t target word =
      (if DMA_BUFFER_SIZE - s.buffer.length < 17 then
         [Effect.send (Message.DmaRecordAppend s.buffer)] else [],
       Outcome.ok { active := s.active,
                    buffer := (if DMA_BUFFER_SIZE - s.buffer.length < 17
                               then [] else s.buffer) ++
                              dmaRecordBytes t target [word] }) := by
  unfold dma_record_output
  rw [prepare_ok s t target 1 hs (by omega)]
  have h17 : HEADER_LENGTH + 1 * 4 = 17 := by unfold HEADER_LENGTH; omega
  simp [h17, dmaRecordBytes]

/-- From an in-range state, `dma_record_output_wide` with at most 16 words
appends exactly one wide trace record, flushing first when space is short. -/
theorem wide_ok (s : DmaRecorder) (t target : Int) (words : List Int)
    (hs : s.buffer.length ≤ DMA_BUFFER_SIZE) (hw : words.length ≤ 16) :
    dma_record_output_wide s t target words =
      (if DMA_BUFFER_SIZE - s.buffer.length < HEADER_LENGTH + words.length * 4 then
         [Effect.send (Message.DmaRecordAppend s.buffer)] else [],
       Outcome.ok { active := s.active,
                    buffer := (if DMA_BUFFER_SIZE - s.buffer.length <
                                 HEADER_LENGTH + words.length * 4
                               then [] else s.buffer) ++
                              dmaRecordBytes t target words }) := by
  unfold dma_record_output_wide
  rw [if_neg (by omega)]
  rw [prepare_ok s t target words.length hs hw]
  simp [dmaRecordBytes]

/-- C1 counterexample: calling `dma_record_output` on an inactive recorder
does not fail — it returns normally and appends a full (non-empty) record
to the buffer, raising no `DMAError`. -/
theorem c1_counterexample :
    (dma_record_output { active := false, buffer := [] } 0 0 0).2 =
      Outcome.ok { active := false, buffer := dmaRecordBytes 0 0 [0] } ∧
    dmaRecordBytes 0 0 [0] ≠ [] := by
  constructor
  · decide
  · decide

/-- C1 (amended): `record_output`/`record_output_wide` do not consult the
`active` flag and never raise `DMAError`: called on an inactive recorder
(from any in-range buffer, with at most 16 words for the wide variant) they
return normally and append the trace record to the buffer exactly as when
recording; protection against recording while inactive comes solely from
the entry-point rebinding done by `record_start`/`record_stop`. -/
theorem c1_output_inactive_appends (s : DmaRecorder) (t target word : Int)
    (words : List Int) (hs : s.buffer.length ≤ DMA_BUFFER_SIZE)
    (hinactive : s.active = false) (hw : words.length ≤ 16) :
    (dma_record_output s t target word).2 =
      Outcome.ok { active := false,
                   buffer := (if DMA_BUFFER_SIZE - s.buffer.length < 17
                              then [] else s.buffer) ++
                             dmaRecordBytes t target [word] } ∧
    (dma_record_output_wide s t target words).2 =
      Outcome.ok { active := false,
                   buffer := (if DMA_BUFFER_SIZE - s.buffer.length <
                                HEADER_LENGTH + words.length * 4
                              then [] else s.buffer) ++
                             dmaRecordBytes t target words } := by
  rw [output_ok s t target word hs, wide_ok s t target words hs hw, hinactive]
  exact ⟨rfl, rfl⟩

/-- Witness for C1 (amended) on an inactive recorder with an empty buffer. -/
theorem c1_output_inactive_appends_witness :
    (dma_record_output { active := false, buffer := [] } 0 3 7).2 =
      Outcome.ok { active := false,
                   buffer := (if DMA_BUFFER_SIZE - (List.length ([] : List Nat)) < 17
                              then [] else []) ++ dmaRecordBytes 0 3 [7] } ∧
    (dma_record_output_wide { active := false, buffer := [] } 0 3 [1, 2]).2 =
      Outcome.ok { active := false,
                   buffer := (if DMA_BUFFER_SIZE - (List.length ([] : List Nat)) <
                                HEADER_LENGTH + (List.length [(1 : Int), 2]) * 4
                              then [] else []) ++ dmaRecordBytes 0 3 [1, 2] } :=
  c1_output_inactive_appends { active := false, buffer := [] } 0 3 7 [1, 2]
    (by decide) rfl (by decide)

/-- C2 counterexample: with the async queue reading full at every poll, an
`rpc_send_async` call is still busy-waiting after 1000 polls and has not
fallen back to the synchronous path (no effect at all has been produced). -/
theorem c2_counterexample :
    rpc_send_async
      { full := fun _ => true, empty := fun _ => true, fits := true }
      1000 0 [] = none := by
  have h : firstClear (fun _ => true) 1000 = none := by
    apply List.find?_eq_none.mpr
    intro x _
    simp
  simp [rpc_send_async, h]

/-- C2 (amended): a full queue makes `rpc_send_async` busy-wait — for any
number of polls during which the queue stays full, the call is still
spinning, with no synchronous fallback; once the full flag clears it
performs the non-blocking enqueue; the fallback to the synchronous mailbox
path happens exactly when the enqueue itself fails because the encoded
call does not fit in a queue entry (`io::Error::UnexpectedEnd`). -/
theorem c2_queue_full_spins (q : RpcQueueOracle) (fuel service : Nat)
    (tag : List Nat) (fits : Bool) (e f : Nat → Bool) :
    (rpc_send_async { full := fun _ => true, empty := e, fits := fits }
        fuel service tag = none) ∧
    (q.full 0 = false → q.fits = false → q.empty 0 = true → 1 ≤ fuel →
      rpc_send_async q fuel service tag =
        some [Effect.send (Message.RpcSend true service tag)]) ∧
    (f 0 = false → 1 ≤ fuel →
      rpc_send_async { full := f, empty := e, fits := true } fuel service tag =
        some [Effect.enqueueAsync service tag]) := by
  have hclear : ∀ (p : Nat → Bool) (m : Nat), p 0 = false → 1 ≤ m →
      firstClear p m = some 0 := by
    intro p m hp hm
    match m, hm with
    | (k + 1), _ =>
      unfold firstClear
      rw [List.range_succ_eq_map]
      simp [List.find?, hp]
  refine ⟨?_, ?_, ?_⟩
  · have h : firstClear (fun _ => true) fuel = none := by
      apply List.find?_eq_none.mpr
      intro x _
      simp
    simp [rpc_send_async, h]
  · intro h1 h2 h3 h4
    have hemp : firstClear (fun i => !(q.empty i)) fuel = some 0 := by
      apply hclear _ _ _ h4
      simp [h3]
    simp [rpc_send_async, hclear q.full fuel h1 h4, h2, hemp]
  · intro h1 h2
    simp [rpc_send_async, hclear f fuel h1 h2]

/-- Witness for C2 (amended): a queue that stays full for 5 polls leaves
the call spinning; a non-full queue with an oversized encoded call takes
the synchronous fallback; a non-full queue with a fitting call enqueues. -/
theorem c2_queue_full_spins_witness :
    (rpc_send_async
       { full := fun _ => true, empty := fun _ => true, fits := false }
       5 3 [9] = none) ∧
    (rpc_send_async
       { full := fun _ => false, empty := fun _ => true, fits := false }
       5 3 [9] = some [Effect.send (Message.RpcSend true 3 [9])]) ∧
    (rpc_send_async
       { full := fun _ => false, empty := fun _ => true, fits := true }
       5 3 [9] = some [Effect.enqueueAsync 3 [9]]) :=
  ⟨(c2_queue_full_spins
      { full := fun _ => false, empty := fun _ => true, fits := false }
      5 3 [9] false (fun _ => true) (fun _ => false)).1,
   (c2_queue_full_spins
      { full := fun _ => false, empty := fun _ => true, fits := false }
      5 3 [9] false (fun _ => true) (fun _ => false)).2.1
     rfl rfl rfl (by decide),
   (c2_queue_full_spins
      { full := fun _ => false, empty := fun _ => true, fits := false }
      5 3 [9] false (fun _ => true) (fun _ => false)).2.2
     rfl (by decide)⟩

/-- Rust `(x >> 8*i) as u8` on a nonnegative value is the i-th base-256
digit. -/
theorem toU8_asr_natCast (n k : Nat) :
    toU8 (asr (n : Int) k) = n / 2 ^ k % 256 := by
  unfold toU8 asr
  have h1 : ((2 : Int) ^ k) = ((2 ^ k : Nat) : Int) := by push_cast; ring
  rw [h1, ← Int.ofNat_fdiv]
  omega

/-- The payload of one wide record is 4 bytes per word. -/
theorem flatten_wordBytes_length (ws : List Int) :
    ((ws.map wordBytes).flatten).length = 4 * ws.length := by
  induction ws with
  | nil => rfl
  | cons w ws ih =>
    simp only [List.map_cons, List.flatten_cons, List.length_append, ih,
               List.length_cons, wordBytes]
    simp
    omega

/-- The record-length accessor on an explicit header. -/
theorem recordLength_cons (b0 b1 b2 b3 b4 b5 b6 b7 b8 b9 b10 b11 b12 : Nat)
    (p : List Nat) :
    recordLength ([b0, b1, b2, b3, b4, b5, b6, b7, b8, b9, b10, b11, b12] ++ p) =
      b0 := rfl

/-- The channel accessor on an explicit header. -/
theorem recordChannel_cons (b0 b1 b2 b3 b4 b5 b6 b7 b8 b9 b10 b11 b12 : Nat)
    (p : List Nat) :
    recordChannel ([b0, b1, b2, b3, b4, b5, b6, b7, b8, b9, b10, b11, b12] ++ p) =
      decodeLE [b1, b2, b3] := rfl

/-- The timestamp accessor on an explicit header. -/
theorem recordTimestamp_cons (b0 b1 b2 b3 b4 b5 b6 b7 b8 b9 b10 b11 b12 : Nat)
    (p : List Nat) :
    recordTimestamp ([b0, b1, b2, b3, b4, b5, b6, b7, b8, b9, b10, b11, b12] ++ p) =
      decodeLE [b4, b5, b6, b7, b8, b9, b10, b11] := rfl

/-- The address accessor on an explicit header. -/
theorem recordAddress_cons (b0 b1 b2 b3 b4 b5 b6 b7 b8 b9 b10 b11 b12 : Nat)
    (p : List Nat) :
    recordAddress ([b0, b1, b2, b3, b4, b5, b6, b7, b8, b9, b10, b11, b12] ++ p) =
      b12 := rfl

/-- The payload accessor on an explicit header. -/
theorem recordPayload_cons (b0 b1 b2 b3 b4 b5 b6 b7 b8 b9 b10 b11 b12 : Nat)
    (p : List Nat) :
    recordPayload ([b0, b1, b2, b3, b4, b5, b6, b7, b8, b9, b10, b11, b12] ++ p) =
      p := rfl

/-- C3: a DMA trace record is byte-encoded little-endian as 1 record-length
byte equal to `13 + 4 * words`, 3 channel bytes (bits 8..31 of the target),
8 timestamp bytes, 1 address byte (bits 0..7 of the target), then
`4 * words` payload bytes; this is exactly what
`record_output`/`record_output_wide` append.  The concrete single-word
case at timestamp 1000, target 5 is the witness below. -/
theorem c3_record_format (t target : Int) (ws : List Int)
    (ht0 : 0 ≤ t) (ht1 : t < 2 ^ 63) (hg0 : 0 ≤ target) (hg1 : target < 2 ^ 31)
    (hw : ws.length ≤ 16) :
    recordLength (dmaRecordBytes t target ws) = 13 + 4 * ws.length ∧
    (dmaRecordBytes t target ws).length = 13 + 4 * ws.length ∧
    recordChannel (dmaRecordBytes t target ws) = target.toNat / 256 ∧
    recordAddress (dmaRecordBytes t target ws) = target.toNat % 256 ∧
    recordTimestamp (dmaRecordBytes t target ws) = t.toNat ∧
    recordWordCount (dmaRecordBytes t target ws) = ws.length ∧
    recordPayload (dmaRecordBytes t target ws) = (ws.map wordBytes).flatten ∧
    (∀ s : DmaRecorder, s.buffer.length ≤ DMA_BUFFER_SIZE →
      (dma_record_output_wide s t target ws).2 =
        Outcome.ok { active := s.active,
                     buffer := (if DMA_BUFFER_SIZE - s.buffer.length <
                                  HEADER_LENGTH + ws.length * 4
                                then [] else s.buffer) ++
                               dmaRecordBytes t target ws }) := by
  obtain ⟨n, rfl⟩ := Int.eq_ofNat_of_zero_le ht0
  obtain ⟨m, rfl⟩ := Int.eq_ofNat_of_zero_le hg0
  have hn : n < 2 ^ 64 := by
    have h : n < 2 ^ 63 := by exact_mod_cast ht1
    omega
  have hm : m < 2 ^ 31 := by exact_mod_cast hg1
  have hrec : dmaRecordBytes (n : Int) (m : Int) ws =
      [(HEADER_LENGTH + ws.length * 4) % 256,
       toU8 (asr (m : Int) 8), toU8 (asr (m : Int) 16), toU8 (asr (m : Int) 24),
       toU8 (asr (n : Int) 0), toU8 (asr (n : Int) 8),
       toU8 (asr (n : Int) 16), toU8 (asr (n : Int) 24),
       toU8 (asr (n : Int) 32), toU8 (asr (n : Int) 40),
       toU8 (asr (n : Int) 48), toU8 (asr (n : Int) 56),
       toU8 (asr (m : Int) 0)] ++ (ws.map wordBytes).flatten := rfl
  have hlenbyte : (HEADER_LENGTH + ws.length * 4) % 256 = 13 + 4 * ws.length := by
    unfold HEADER_LENGTH
    omega
  refine ⟨?_, ?_, ?_, ?_, ?_, ?_, ?_, ?_⟩
  · rw [hrec, recordLength_cons, hlenbyte]
  · rw [hrec]
    rw [List.length_append, flatten_wordBytes_length]
    simp
  · rw [hrec, recordChannel_cons]
    simp only [decodeLE, toU8_asr_natCast, Int.toNat_natCast]
    norm_num
    omega
  · rw [hrec, recordAddress_cons, toU8_asr_natCast]
    simp only [Int.toNat_natCast]
    norm_num
  · rw [hrec, recordTimestamp_cons]
    simp only [decodeLE, toU8_asr_natCast, Int.toNat_natCast]
    norm_num
    omega
  · unfold recordWordCount
    rw [hrec, recordLength_cons, hlenbyte]
    omega
  · rw [hrec, recordPayload_cons]
  · intro s hsb
    rw [wide_ok s (n : Int) (m : Int) ws hsb hw]

/-- Witness for C3: one single-word record at timestamp 1000, target 5 has
address byte 5, channel bits 0, timestamp 1000 and word count 1. -/
theorem c3_record_format_witness :
    recordAddress (dmaRecordBytes 1000 5 [7]) = 5 ∧
    recordChannel (dmaRecordBytes 1000 5 [7]) = 0 ∧
    recordTimestamp (dmaRecordBytes 1000 5 [7]) = 1000 ∧
    recordWordCount (dmaRecordBytes 1000 5 [7]) = 1 ∧
    recordLength (dmaRecordBytes 1000 5 [7]) = 17 := by
  have h := c3_record_format 1000 5 [7] (by norm_num) (by norm_num)
    (by norm_num) (by norm_num) (by norm_num)
  refine ⟨?_, ?_, ?_, ?_, ?_⟩
  · simpa using h.2.2.2.1
  · simpa using h.2.2.1
  · simpa using h.2.2.2.2.1
  · simpa using h.2.2.2.2.2.1
  · simpa using h.1

/-- `flushedBytes` distributes over effect concatenation. -/
theorem flushedBytes_append (a b : List Effect) :
    flushedBytes (a ++ b) = flushedBytes a ++ flushedBytes b := by
  simp [flushedBytes]

/-- A trace record is 13 header bytes plus 4 bytes per word. -/
theorem dmaRecordBytes_length (t target : Int) (ws : List Int) :
    (dmaRecordBytes t target ws).length = 13 + 4 * ws.length := by
  unfold dmaRecordBytes
  rw [List.length_append, flatten_wordBytes_length]
  simp [dmaHeader]

/-- One recording step from an in-range state succeeds, stays in range,
leaves the `active` flag alone, and accounts for every byte: the bytes
flushed by the step plus the new buffer equal the old buffer plus the
record appended. -/
theorem runEvent_ok (s : DmaRecorder) (e : DmaEvent)
    (hs : s.buffer.length ≤ DMA_BUFFER_SIZE) (he : eventOK e = true) :
    ∃ effs s1, runEvent s e = (effs, Outcome.ok s1) ∧
      s1.buffer.length ≤ DMA_BUFFER_SIZE ∧
      s1.active = s.active ∧
      flushedBytes effs ++ s1.buffer = s.buffer ++ eventBytes e := by
  have hC : DMA_BUFFER_SIZE = 65536 := rfl
  cases e with
  | output t target word =>
    have hrun : runEvent s (DmaEvent.output t target word) =
        (if DMA_BUFFER_SIZE - s.buffer.length < 17 then
           [Effect.send (Message.DmaRecordAppend s.buffer)] else [],
         Outcome.ok { active := s.active,
                      buffer := (if DMA_BUFFER_SIZE - s.buffer.length < 17
                                 then [] else s.buffer) ++
                                dmaRecordBytes t target [word] }) := by
      show dma_record_output s t target word = _
      exact output_ok s t target word hs
    by_cases hc : DMA_BUFFER_SIZE - s.buffer.length < 17
    · refine ⟨_, _, hrun, ?_, rfl, ?_⟩
      · simp [hc, dmaRecordBytes_length]
        omega
      · simp [hc, flushedBytes, flushedOf, eventBytes]
    · refine ⟨_, _, hrun, ?_, rfl, ?_⟩
      · simp [hc, dmaRecordBytes_length]
        omega
      · simp [hc, flushedBytes, flushedOf, eventBytes]
  | outputWide t target words =>
    have hw : words.length ≤ 16 := by
      have h := of_decide_eq_true he
      exact h
    have hrun : runEvent s (DmaEvent.outputWide t target words) =
        (if DMA_BUFFER_SIZE - s.buffer.length <
             HEADER_LENGTH + words.length * 4 then
           [Effect.send (Message.DmaRecordAppend s.buffer)] else [],
         Outcome.ok { active := s.active,
                      buffer := (if DMA_BUFFER_SIZE - s.buffer.length <
                                   HEADER_LENGTH + words.length * 4
                                 then [] else s.buffer) ++
                                dmaRecordBytes t target words }) := by
      show dma_record_output_wide s t target words = _
      exact wide_ok s t target words hs hw
    have hH : HEADER_LENGTH = 13 := rfl
    by_cases hc : DMA_BUFFER_SIZE - s.buffer.length <
        HEADER_LENGTH + words.length * 4
    · refine ⟨_, _, hrun, ?_, rfl, ?_⟩
      · simp [hc, dmaRecordBytes_length]
        omega
      · simp [hc, flushedBytes, flushedOf, eventBytes]
    · refine ⟨_, _, hrun, ?_, rfl, ?_⟩
      · simp [hc, dmaRecordBytes_length]
        omega
      · simp [hc, flushedBytes, flushedOf, eventBytes]

/-- C4: over any sequence of `record_output`/`record_output_wide` calls
from an in-range recorder state (each wide call within the 16-word limit),
the cursor never exceeds the 64 KiB capacity: every step returns normally
(no out-of-range access), the final buffer is in range, and the bytes
flushed to the host (`DmaRecordAppend` payloads, produced exactly when the
remaining space is insufficient, with the cursor reset) followed by the
final buffer equal the initial buffer followed by the concatenation of all
appended records — so no record is split across a flush boundary. -/
theorem c4_capacity_invariant (s : DmaRecorder) (events : List DmaEvent)
    (hs : s.buffer.length ≤ DMA_BUFFER_SIZE)
    (hev : ∀ e ∈ events, eventOK e = true) :
    ∃ s2, (runEvents s events).2 = Outcome.ok s2 ∧
      s2.buffer.length ≤ DMA_BUFFER_SIZE ∧
      s2.active = s.active ∧
      flushedBytes (runEvents s events).1 ++ s2.buffer =
        s.buffer ++ (events.map eventBytes).flatten := by
  induction events generalizing s with
  | nil => exact ⟨s, rfl, hs, rfl, by simp [flushedBytes, runEvents]⟩
  | cons e es ih =>
    obtain ⟨effs, s1, hrun, h1, hact1, hcat1⟩ :=
      runEvent_ok s e hs (hev e (List.mem_cons_self e es))
    obtain ⟨s2, hok, h2, hact2, hcat2⟩ :=
      ih s1 h1 (fun x hx => hev x (List.mem_cons_of_mem e hx))
    refine ⟨s2, ?_, h2, hact2.trans hact1, ?_⟩
    · simp [runEvents, hrun, hok]
    · simp only [runEvents, hrun, List.map_cons, List.flatten_cons]
      rw [flushedBytes_append, List.append_assoc, hcat2, ← List.append_assoc,
          hcat1, List.append_assoc]

/-- Witness for C4: three outputs whose records total more than the space
left in an almost-unused buffer still run in range. -/
theorem c4_capacity_invariant_witness :
    ∃ s2, (runEvents { active := true, buffer := [] }
             [DmaEvent.output 0 1 2, DmaEvent.outputWide 3 4 [5, 6],
              DmaEvent.output 7 8 9]).2 = Outcome.ok s2 ∧
      s2.buffer.length ≤ DMA_BUFFER_SIZE ∧
      s2.active = ({ active := true, buffer := [] } : DmaRecorder).active ∧
      flushedBytes (runEvents { active := true, buffer := [] }
          [DmaEvent.output 0 1 2, DmaEvent.outputWide 3 4 [5, 6],
           DmaEvent.output 7 8 9]).1 ++ s2.buffer =
        ({ active := true, buffer := [] } : DmaRecorder).buffer ++
          ([DmaEvent.output 0 1 2, DmaEvent.outputWide 3 4 [5, 6],
            DmaEvent.output 7 8 9].map eventBytes).flatten :=
  c4_capacity_invariant { active := true, buffer := [] }
    [DmaEvent.output 0 1 2, DmaEvent.outputWide 3 4 [5, 6],
     DmaEvent.output 7 8 9] (by decide) (by decide)

/-- When every sequenced call succeeds with a known effect list, sequencing
succeeds with their concatenation. -/
theorem seqEffects_eq {α : Type} (xs : List α) (f : α → Option (List Effect))
    (g : α → List Effect) (h : ∀ x ∈ xs, f x = some (g x)) :
    seqEffects xs f = some ((xs.map g).flatten) := by
  induction xs with
  | nil => rfl
  | cons x xs ih =>
    simp only [seqEffects, h x (List.mem_cons_self x xs),
               ih (fun y hy => h y (List.mem_cons_of_mem x hy)),
               List.map_cons, List.flatten_cons]

/-- Per-attribute posts: mapping the tag-guarded singleton and flattening
equals filtering the non-empty tags and mapping the post. -/
theorem flatten_map_tagPosts (attrs : List AttrDesc) :
    (attrs.map (fun attr => if 0 < attr.tag.length then
        [Effect.enqueueAsync 0 attr.tag] else [])).flatten =
      (attrs.filter (fun attr => 0 < attr.tag.length)).map
        (fun attr => Effect.enqueueAsync 0 attr.tag) := by
  induction attrs with
  | nil => rfl
  | cons a l ih =>
    by_cases h0 : 0 < a.tag.length
    · simp [h0, List.filter_cons, ih]
    · simp [h0, List.filter_cons, ih]

/-- C9: at normal completion, the runtime first posts the attribute
write-back RPCs (one asynchronous call per attribute with a non-empty type
tag, walking the type, object and attribute tables in order), then sends
`RpcFlush`, and only then sends `RunFinished`; every effect preceding the
final two sends is an async post, so `RunFinished` is never sent before
`RpcFlush` or before the write-back RPCs. -/
theorem c9_finish_order (tys : List TypeDesc) :
    mainFinish immediateQueue 1 (some tys) =
      some (writebackPosts tys ++
            [Effect.send Message.RpcFlush, Effect.send Message.RunFinished]) ∧
    (∀ e ∈ writebackPosts tys, ∃ tag, e = Effect.enqueueAsync 0 tag) := by
  constructor
  · have hwb : attribute_writeback immediateQueue 1 tys =
        some (writebackPosts tys) := by
      unfold attribute_writeback writebackPosts
      apply seqEffects_eq
      intro ty _
      apply seqEffects_eq
      intro o _
      have hin : ∀ attr ∈ ty.attributes,
          (if 0 < attr.tag.length then
             rpc_send_async immediateQueue 1 0 attr.tag
           else some []) =
          some (if 0 < attr.tag.length then
                  [Effect.enqueueAsync 0 attr.tag] else []) := by
        intro attr _
        by_cases h0 : 0 < attr.tag.length
        · simp only [if_pos h0]
          rfl
        · simp [h0]
      rw [seqEffects_eq ty.attributes _
            (fun attr => if 0 < attr.tag.length then
               [Effect.enqueueAsync 0 attr.tag] else []) hin,
          flatten_map_tagPosts]
    simp [mainFinish, hwb]
  · intro e he
    unfold writebackPosts at he
    rw [List.mem_flatten] at he
    obtain ⟨L, hLmem, heL⟩ := he
    rw [List.mem_map] at hLmem
    obtain ⟨ty, hty, rfl⟩ := hLmem
    rw [List.mem_flatten] at heL
    obtain ⟨M, hMmem, heM⟩ := heL
    rw [List.mem_map] at hMmem
    obtain ⟨o, ho, rfl⟩ := hMmem
    rw [List.mem_map] at heM
    obtain ⟨attr, hattr, rfl⟩ := heM
    exact ⟨attr.tag, rfl⟩

end Artiq
